import Mathlib

/-!
# Verification of `gpx2routecard` (src/gpx2routecard/main.py)

Shallow embedding of the core of the GPX → route-card converter.

Conventions of the embedding:

* Python floats are modelled as real numbers (`ℝ`); Python's `round(x)`
  is modelled by Mathlib's `round`, and `round(x, 2)` by `round2` below.
* Python's `%` on reals with a positive right operand is `pymod` below
  (result in `[0, m)` for `m > 0`, like CPython).
* `math.atan2` is modelled by `atan2` below (the standard real atan2;
  signed-zero distinctions of IEEE floats do not exist on `ℝ`).
* Fallible Python code (list indexing that can raise `IndexError`,
  `min` over an empty sequence raising `ValueError`, the HTTP elevation
  call raising) is modelled with `Option`: `none` is an uncaught
  exception escaping `extract_named_waypoints`.
* External collaborators (the `OSGridConverter.latlong2grid` function and
  the open-elevation HTTP service) are parameters of the embedded
  functions: `latlong2grid` becomes an abstract `grid : ℝ × ℝ → String`
  argument, and the result of `get_elevations_post` becomes an
  `Option (List ℝ)` argument (`none` = the request raised; `some es` =
  the per-point elevations, positionally aligned with the request).
-/

namespace Gpx2RouteCard

/-! ## Geodesy utilities (main.py lines 12–35) -/

/-- `math.radians`: degrees to radians. -/
noncomputable def radiansOf (d : ℝ) : ℝ := d * Real.pi / 180

/-- `math.degrees`: radians to degrees. -/
noncomputable def degreesOf (r : ℝ) : ℝ := r * 180 / Real.pi

/-- Python's `%` on reals: `x - m * floor (x / m)`. For `m > 0` the result
lies in `[0, m)`, exactly as CPython's float modulo. -/
noncomputable def pymod (x m : ℝ) : ℝ := x - m * ((Int.floor (x / m) : ℤ) : ℝ)

/-- `math.atan2 y x`: the angle of the point `(x, y)` in `(-π, π]`.
On the reals there are no signed zeros, so the `y = 0, x < 0` case
returns `π` (CPython returns `π` for `+0.0` and `-π` for `-0.0`). -/
noncomputable def atan2 (y x : ℝ) : ℝ :=
  if 0 < x then Real.arctan (y / x)
  else if x < 0 then
    (if 0 ≤ y then Real.arctan (y / x) + Real.pi else Real.arctan (y / x) - Real.pi)
  else
    (if 0 < y then Real.pi / 2 else if y < 0 then -(Real.pi / 2) else 0)

/-- `haversine(lat1, lon1, lat2, lon2)` from main.py lines 12–20:
great-circle distance in km on a sphere of radius 6371 km. -/
noncomputable def haversine (lat1 lon1 lat2 lon2 : ℝ) : ℝ :=
  let R : ℝ := 6371
  let phi1 := radiansOf lat1
  let phi2 := radiansOf lat2
  let dphi := radiansOf (lat2 - lat1)
  let dlambda := radiansOf (lon2 - lon1)
  let a := Real.sin (dphi / 2) ^ 2 +
    Real.cos phi1 * Real.cos phi2 * Real.sin (dlambda / 2) ^ 2
  let c := 2 * atan2 (Real.sqrt a) (Real.sqrt (1 - a))
  R * c

/-- `calculate_bearing(lat1, lon1, lat2, lon2)` from main.py lines 22–35:
initial compass bearing, `(degrees(atan2 y x) + 360) % 360` rounded to the
nearest integer. -/
noncomputable def calculate_bearing (lat1 lon1 lat2 lon2 : ℝ) : ℤ :=
  let lat1r := radiansOf lat1
  let lon1r := radiansOf lon1
  let lat2r := radiansOf lat2
  let lon2r := radiansOf lon2
  let y := Real.sin (lon2r - lon1r) * Real.cos lat2r
  let x := Real.cos lat1r * Real.sin lat2r -
    Real.sin lat1r * Real.cos lat2r * Real.cos (lon2r - lon1r)
  let b := degreesOf (atan2 y x)
  round (pymod (b + 360) 360)

/-- Python's `round(x, 2)`: round to two decimal places. -/
noncomputable def round2 (x : ℝ) : ℝ := ((round (x * 100) : ℤ) : ℝ) / 100

/-! ## Data model

The Python tuples of `extract_named_waypoints` become structures:
`('name', 'description', lat, lon, grid_ref)` is a `NamedPoint`, a GPX
waypoint (`wpt.name`, `wpt.description or ''`, coordinates) is a `Wpt`,
and the emitted row dict (main.py lines 102–110) is a `Row`.  A Python
cell that is either the empty string `''` or a number is a `Cell`. -/

structure Wpt where
  name : String
  description : String
  lat : ℝ
  lon : ℝ

structure NamedPoint where
  name : String
  description : String
  lat : ℝ
  lon : ℝ
  gridRef : String

def defaultNamedPoint : NamedPoint := ⟨"", "", 0, 0, ""⟩

/-- A spreadsheet cell holding either the empty string `''` or a value. -/
inductive Cell (α : Type) where
  | blank : Cell α
  | val : α → Cell α
deriving DecidableEq

/-- The row dict built in main.py lines 102–110. -/
structure Row where
  grid_reference : String
  name : String
  distance_from_last_km : Cell ℝ
  bearing : String
  description : String
  ascent : Cell ℤ

def defaultRow : Row := ⟨"", "", Cell.blank, "", "", Cell.blank⟩

/-! ## String helpers used by the extractor -/

/-- Python `str.rjust(w)`: left-pad with spaces to width `w`. -/
def rjust (s : String) (w : ℕ) : String :=
  String.mk (List.replicate (w - s.data.length) ' ' ++ s.data)

/-- Left-pad a digit string with zeros to width `w`. -/
def zfill (s : String) (w : ℕ) : String :=
  String.mk (List.replicate (w - s.data.length) '0' ++ s.data)

/-- Python `f"{b:03d}°"`: the bearing string of main.py line 92. -/
def formatBearing (b : ℤ) : String :=
  (if b < 0 then String.mk ('-' :: (zfill (toString (-b)) 2).data)
   else zfill (toString b) 3) ++ "°"

/-! ## Track/Waypoint extractor (main.py lines 37–111)

`latlong2grid` (external OSGridConverter library) is abstracted as a
`grid : ℝ × ℝ → String` parameter; the result of the batched HTTP
elevation lookup (`get_elevations_post`, external service) is an
`Option (List ℝ)` parameter holding the `elevation` component of each
returned triple, `none` meaning the request raised. -/

/-- main.py lines 51–59: the synthetic START entry (head of the polyline)
followed by every GPX waypoint with a non-empty name. -/
def namedPoints0 (grid : ℝ × ℝ → String) (route_points : List (ℝ × ℝ))
    (gpx_waypoints : List Wpt) : List NamedPoint :=
  (match route_points with
   | [] => []
   | (la, lo) :: _ => [⟨"START", "", la, lo, grid (la, lo)⟩]) ++
  (gpx_waypoints.filter (fun w => w.name != "")).map
    (fun w => ⟨w.name, w.description, w.lat, w.lon, grid (w.lat, w.lon)⟩)

/-- main.py lines 60–63: overwrite the name of the final entry with
"END", keeping its description, coordinates and grid reference. -/
def renameEnd (l : List NamedPoint) : List NamedPoint :=
  match l.getLast? with
  | none => l
  | some p => l.dropLast ++ [⟨"END", p.description, p.lat, p.lon, p.gridRef⟩]

/-- The full named-point list of main.py lines 51–63. -/
def namedPoints (grid : ℝ × ℝ → String) (route_points : List (ℝ × ℝ))
    (gpx_waypoints : List Wpt) : List NamedPoint :=
  renameEnd (namedPoints0 grid route_points gpx_waypoints)

/-- Python's `min(iterable, key=key)` fold: the current best is replaced
only when the key is strictly smaller, so the first minimum wins. -/
noncomputable def minBy (key : ℕ → ℝ) : List ℕ → ℕ → ℕ
  | [], best => best
  | i :: rest, best => minBy key rest (if key i < key best then i else best)

/-- `nearest_idx` of main.py lines 69–70: index of the polyline point
nearest to `(lat, lon)` under `haversine`, via Python's `min` over
`range(len(route_points))`.  Python raises `ValueError` on an empty
range; that unreachable branch returns `0` here and the caller
(`extract_named_waypoints`) models the exception explicitly. -/
noncomputable def nearest_idx (route_points : List (ℝ × ℝ)) (lat lon : ℝ) : ℕ :=
  match List.range route_points.length with
  | [] => 0
  | i :: rest =>
    minBy (fun j => haversine lat lon (route_points.getD j (0, 0)).1
      (route_points.getD j (0, 0)).2) rest i

/-- main.py lines 82–86: accumulate `haversine` over `range(p, q)`
(adjacent polyline pairs `j`, `j+1`). -/
noncomputable def legTotal (rp : List (ℝ × ℝ)) (p q : ℕ) : ℝ :=
  (List.range' p (q - p)).foldl
    (fun total j =>
      total + haversine (rp.getD j (0, 0)).1 (rp.getD j (0, 0)).2
        (rp.getD (j + 1) (0, 0)).1 (rp.getD (j + 1) (0, 0)).2) 0

/-- main.py lines 81–87: the per-leg distances, one for each consecutive
pair of matched indices, rounded to 2 decimal places. -/
noncomputable def legDistances (rp : List (ℝ × ℝ)) (indices : List ℕ) : List ℝ :=
  (List.range (indices.length - 1)).map
    (fun i => round2 (legTotal rp (indices.getD i 0) (indices.getD (i + 1) 0)))

/-- main.py lines 77, 89–92, 99: `''` then one formatted bearing per
consecutive pair of named points, then a final `''` (the final entry is
appended but never read by the row loop). -/
noncomputable def bearingsList (np : List NamedPoint) : List String :=
  [""] ++
  (List.range (np.length - 1)).map
    (fun i =>
      formatBearing (calculate_bearing (np.getD i defaultNamedPoint).lat
        (np.getD i defaultNamedPoint).lon
        (np.getD (i + 1) defaultNamedPoint).lat
        (np.getD (i + 1) defaultNamedPoint).lon)) ++
  [""]

/-- main.py lines 94–96: the middle ascent cells,
`round(elevations[i+1] - elevations[i])` for each `i` of the loop; a
list-index miss is Python's `IndexError`, modelled by `none`. -/
noncomputable def collectAscents (es : List ℝ) : List ℕ → Option (List (Cell ℤ))
  | [] => some []
  | i :: rest =>
    match es[i + 1]?, es[i]? with
    | some b, some a => (collectAscents es rest).map
        (fun t => Cell.val (round (b - a)) :: t)
    | _, _ => none

/-- main.py lines 78, 94–96, 100: the full ascent-cell list: `''`, the
per-leg rounded deltas, then a trailing `''` (never read by the row
loop). -/
noncomputable def ascentsList (es : List ℝ) (n : ℕ) : Option (List (Cell ℤ)) :=
  (collectAscents es (List.range (n - 1))).map
    (fun mids => [Cell.blank] ++ mids ++ [Cell.blank])

/-- main.py lines 102–110: one row per named point. -/
noncomputable def buildRows (np : List NamedPoint) (distances : List ℝ)
    (bearings : List String) (ascents : List (Cell ℤ)) : List Row :=
  (List.range np.length).map (fun i =>
    let p := np.getD i defaultNamedPoint
    { grid_reference := rjust p.gridRef 8
      name := p.name
      distance_from_last_km :=
        if i = 0 then Cell.blank else Cell.val (distances.getD (i - 1) 0)
      bearing := bearings.getD i ""
      description := p.description
      ascent := ascents.getD i Cell.blank })

/-- `extract_named_waypoints` of main.py lines 37–111, after GPX parsing:
given the polyline, the GPX waypoint list, and the elevation-lookup
outcome, produce the emitted rows; `none` is an exception escaping the
function (elevation request raised, `min` over an empty polyline, or an
elevation `IndexError`). -/
noncomputable def extract_named_waypoints (grid : ℝ × ℝ → String)
    (route_points : List (ℝ × ℝ)) (gpx_waypoints : List Wpt)
    (elevResult : Option (List ℝ)) : Option (List Row) :=
  let np := namedPoints grid route_points gpx_waypoints
  match elevResult with
  | none => none
  | some es =>
    if route_points.isEmpty && !np.isEmpty then none
    else
      let indices := np.map (fun p => nearest_idx route_points p.lat p.lon)
      let ds := legDistances route_points indices
      let bs := bearingsList np
      match ascentsList es np.length with
      | none => none
      | some asc => some (buildRows np ds bs asc)

/-! ## Spreadsheet writer formulas (main.py lines 174–182) -/

/-- A value computed by the spreadsheet's formula engine. -/
inductive XlValue where
  | num : ℤ → XlValue
  | str : String → XlValue
deriving DecidableEq

/-- main.py lines 175–181: the Rest (min) formula text for spreadsheet
row `row` (data rows are rows `2 .. len(df)+1`). -/
def restFormula (row : ℕ) : String := if row = 2 then "=\"\"" else "=10"

/-- Digit value of an ASCII digit character. -/
def digitVal (c : Char) : Option ℕ :=
  if '0' ≤ c ∧ c ≤ '9' then some (c.toNat - '0'.toNat) else none

/-- Parse a non-empty run of decimal digits. -/
def parseNatLoop : List Char → ℕ → Option ℕ
  | [], acc => some acc
  | c :: rest, acc =>
    match digitVal c with
    | some d => parseNatLoop rest (acc * 10 + d)
    | none => none

/-- Parse an optionally negated decimal integer. -/
def parseIntChars : List Char → Option ℤ
  | [] => none
  | '-' :: rest =>
    if rest = [] then none
    else (parseNatLoop rest 0).map (fun n => -(n : ℤ))
  | l => (parseNatLoop l 0).map (fun n => (n : ℤ))

/-- Modelled from the spec: the spreadsheet engine (an external
collaborator, §4.4/§6 of the spec) recomputes emitted formula text on
open; for the constant formulas the program emits, `=\"\"` yields
the empty string and `=<integer>` yields that integer. -/
def evalConstFormula (f : String) : Option XlValue :=
  match f.data with
  | '=' :: '"' :: '"' :: [] => some (XlValue.str "")
  | '=' :: rest => (parseIntChars rest).map XlValue.num
  | _ => none

/-! ## CLI glue (main.py lines 120–134) -/

/-- CPython `posixpath.splitext` on a list of characters: `rfind`. -/
def rfindChar (c : Char) (l : List Char) : ℤ :=
  l.enum.foldl (fun acc p => if p.2 = c then (p.1 : ℤ) else acc) (-1)

/-- CPython `posixpath.splitext`: split at the last `'.'` of the final
path component unless the component consists only of leading dots. -/
def splitextChars (p : List Char) : List Char × List Char :=
  let si := rfindChar '/' p
  let di := rfindChar '.' p
  if si < di then
    if ((p.take di.toNat).drop (si + 1).toNat).any (fun c => c != '.') then
      (p.take di.toNat, p.drop di.toNat)
    else (p, [])
  else (p, [])

/-- ASCII lower-casing of one character (Python `str.lower` restricted
to the ASCII range, which is all the extension check compares). -/
def lowerChar (c : Char) : Char :=
  if 'A' ≤ c ∧ c ≤ 'Z' then Char.ofNat (c.toNat + 32) else c

/-- ASCII `str.lower` on strings. -/
def toLowerStr (s : String) : String := String.mk (s.data.map lowerChar)

/-- `os.path.splitext` on strings. -/
def splitext (p : String) : String × String :=
  let r := splitextChars p.data
  (String.mk r.1, String.mk r.2)

/-- Outcome of one `main()` invocation (main.py lines 120–257).
Every constructor except `success` makes the program print a message and
call `sys.exit(1)` without writing the output file; `success rows out`
writes the spreadsheet `out` and exits 0. -/
inductive MainResult where
  | usageError
  | extensionError
  | gpxParseError
  | conversionError
  | noWaypointsError
  | success : List Row → String → MainResult

/-- `main()` of main.py lines 120–257: argument-count check, extension
check, then conversion.  GPX parsing (done inside
`extract_named_waypoints` in the Python source via `gpxpy.parse`) is the
`parsed` oracle: `none` is a `GPXXMLSyntaxException`. -/
noncomputable def mainRun (argv : List String) (grid : ℝ × ℝ → String)
    (parsed : Option (List (ℝ × ℝ) × List Wpt))
    (elevResult : Option (List ℝ)) : MainResult :=
  if argv.length ≠ 2 then MainResult.usageError
  else
    let inp := argv.getD 1 ""
    let pr := splitext inp
    if toLowerStr pr.2 ≠ ".gpx" then MainResult.extensionError
    else
      match parsed with
      | none => MainResult.gpxParseError
      | some (rp, wpts) =>
        match extract_named_waypoints grid rp wpts elevResult with
        | none => MainResult.conversionError
        | some [] => MainResult.noWaypointsError
        | some rows => MainResult.success rows (pr.1 ++ ".xlsx")

/-- Exit code of an outcome: 0 on success, 1 on any failure. -/
def exitCode : MainResult → ℕ
  | MainResult.success _ _ => 0
  | _ => 1

/-- Sum of the numeric cells of a column, blanks contributing nothing. -/
def cellSumZ : List (Cell ℤ) → ℤ
  | [] => 0
  | Cell.blank :: t => cellSumZ t
  | Cell.val z :: t => z + cellSumZ t

/-! ## Theorems for claim C7 -/

/-- `sin²` applied to half the degree-to-radian conversion of a difference
is symmetric in the two arguments. -/
theorem sin_sq_radians_sub_symm (u v : ℝ) :
    Real.sin (radiansOf (u - v) / 2) ^ 2 = Real.sin (radiansOf (v - u) / 2) ^ 2 := by
  have h : radiansOf (u - v) / 2 = -(radiansOf (v - u) / 2) := by
    unfold radiansOf; ring
  rw [h, Real.sin_neg, neg_sq]

/-- C7: for every pair of coordinates `a`, `b`, `haversine a b = haversine b a`,
and for every coordinate `a`, `haversine a a = 0`. -/
theorem haversine_symm_and_self_eq_zero (lat1 lon1 lat2 lon2 : ℝ) :
    haversine lat1 lon1 lat2 lon2 = haversine lat2 lon2 lat1 lon1 ∧
    haversine lat1 lon1 lat1 lon1 = 0 := by
  constructor
  · have ha : Real.sin (radiansOf (lat2 - lat1) / 2) ^ 2 +
        Real.cos (radiansOf lat1) * Real.cos (radiansOf lat2) *
          Real.sin (radiansOf (lon2 - lon1) / 2) ^ 2 =
      Real.sin (radiansOf (lat1 - lat2) / 2) ^ 2 +
        Real.cos (radiansOf lat2) * Real.cos (radiansOf lat1) *
          Real.sin (radiansOf (lon1 - lon2) / 2) ^ 2 := by
      rw [sin_sq_radians_sub_symm lat2 lat1, sin_sq_radians_sub_symm lon2 lon1]
      ring
    simp only [haversine]
    rw [ha]
  · have h0 : radiansOf (lat1 - lat1) = 0 := by unfold radiansOf; ring
    have h1 : radiansOf (lon1 - lon1) = 0 := by unfold radiansOf; ring
    simp only [haversine, h0, h1]
    simp [atan2]

/-! ## Theorems for claim C1 -/

/-- A left fold of additions over `range' p c` is the sum over `Ico p (p+c)`. -/
theorem foldl_add_range' (f : ℕ → ℝ) (c : ℕ) :
    ∀ (p : ℕ) (x : ℝ), (List.range' p c).foldl (fun t j => t + f j) x
      = x + ∑ j ∈ Finset.Ico p (p + c), f j := by
  induction c with
  | zero => intro p x; simp
  | succ c ih =>
    intro p x
    rw [List.range'_succ]
    simp only [List.foldl_cons]
    rw [ih (p + 1) (x + f p)]
    have hb : p + 1 + c = p + (c + 1) := by omega
    rw [hb, Finset.sum_eq_sum_Ico_succ_bot (by omega : p < p + (c + 1)) f]
    ring

/-- The accumulation loop of main.py lines 82–86 computes the sum of
`haversine` over every adjacent polyline pair from `p` up to `q` (the
empty sum when `q ≤ p`). -/
theorem legTotal_eq_sum (rp : List (ℝ × ℝ)) (p q : ℕ) :
    legTotal rp p q = ∑ j ∈ Finset.Ico p q,
      haversine (rp.getD j (0, 0)).1 (rp.getD j (0, 0)).2
        (rp.getD (j + 1) (0, 0)).1 (rp.getD (j + 1) (0, 0)).2 := by
  unfold legTotal
  rw [foldl_add_range']
  rcases le_or_lt p q with h | h
  · rw [Nat.add_sub_cancel' h, zero_add]
  · have h1 : q - p = 0 := by omega
    rw [h1, Nat.add_zero, Finset.Ico_self, Finset.sum_empty,
      Finset.Ico_eq_empty (by omega : ¬p < q), Finset.sum_empty, add_zero]

/-- C1: for every pair of consecutive matched indices `(p, q)` the emitted
leg distance is the 2-decimal rounding of the sum of haversine distances
over adjacent polyline pairs from `p` up to `q`, and it is `0` whenever
`q < p` (empty accumulation range). -/
theorem legDistances_eq_round2_sum_Ico (rp : List (ℝ × ℝ)) (indices : List ℕ)
    (i : ℕ) (h : i + 1 < indices.length) :
    (legDistances rp indices).getD i 0 =
      round2 (∑ j ∈ Finset.Ico (indices.getD i 0) (indices.getD (i + 1) 0),
        haversine (rp.getD j (0, 0)).1 (rp.getD j (0, 0)).2
          (rp.getD (j + 1) (0, 0)).1 (rp.getD (j + 1) (0, 0)).2) ∧
    (indices.getD (i + 1) 0 < indices.getD i 0 →
      (legDistances rp indices).getD i 0 = 0) := by
  have hi : i < indices.length - 1 := by omega
  have hget : (legDistances rp indices).getD i 0 =
      round2 (legTotal rp (indices.getD i 0) (indices.getD (i + 1) 0)) := by
    unfold legDistances
    rw [List.getD_eq_getElem?_getD, List.getElem?_map, List.getElem?_range hi]
    rfl
  constructor
  · rw [hget, legTotal_eq_sum]
  · intro hlt
    rw [hget, legTotal_eq_sum, Finset.Ico_eq_empty (by omega), Finset.sum_empty]
    unfold round2
    rw [mul_comm, mul_zero, round_zero, Int.cast_zero, zero_div]

/-- Witness for C1 at a concrete input: `indices = [3, 1]` (a reversed
pair, exercising the empty-range case) over an arbitrary short polyline. -/
theorem legDistances_eq_round2_sum_Ico_witness :
    (legDistances [((0 : ℝ), (0 : ℝ)), (1, 1)] [3, 1]).getD 0 0 =
      round2 (∑ j ∈ Finset.Ico (([3, 1] : List ℕ).getD 0 0) (([3, 1] : List ℕ).getD 1 0),
        haversine (([((0 : ℝ), (0 : ℝ)), (1, 1)]).getD j (0, 0)).1
          (([((0 : ℝ), (0 : ℝ)), (1, 1)]).getD j (0, 0)).2
          (([((0 : ℝ), (0 : ℝ)), (1, 1)]).getD (j + 1) (0, 0)).1
          (([((0 : ℝ), (0 : ℝ)), (1, 1)]).getD (j + 1) (0, 0)).2) ∧
    (([3, 1] : List ℕ).getD 1 0 < ([3, 1] : List ℕ).getD 0 0 →
      (legDistances [((0 : ℝ), (0 : ℝ)), (1, 1)] [3, 1]).getD 0 0 = 0) :=
  legDistances_eq_round2_sum_Ico [((0 : ℝ), (0 : ℝ)), (1, 1)] [3, 1] 0 (by decide)

/-! ## Theorems for claim C2 -/

/-- The `min`-with-key fold: over a strictly increasing candidate list
whose elements all exceed the initial best, the result is a candidate
attaining the minimum key, and among equal keys the smallest candidate. -/
theorem minBy_spec (key : ℕ → ℝ) :
    ∀ (l : List ℕ) (best : ℕ), l.Pairwise (· < ·) → (∀ x ∈ l, best < x) →
      (minBy key l best = best ∨ minBy key l best ∈ l) ∧
      key (minBy key l best) ≤ key best ∧
      (∀ x ∈ l, key (minBy key l best) ≤ key x) ∧
      (∀ x, (x = best ∨ x ∈ l) → key x = key (minBy key l best) →
        minBy key l best ≤ x) := by
  intro l
  induction l with
  | nil =>
    intro best _ _
    refine ⟨Or.inl rfl, le_refl _, by simp, ?_⟩
    intro x hx _
    rcases hx with rfl | hx
    · exact le_refl _
    · simp at hx
  | cons i rest ih =>
    intro best hpw hlt
    obtain ⟨hi_rest, hpw'⟩ := List.pairwise_cons.mp hpw
    by_cases hkey : key i < key best
    · have hred : minBy key (i :: rest) best = minBy key rest i := by
        simp only [minBy, if_pos hkey]
      obtain ⟨hmem, hle, hall, hfirst⟩ := ih i hpw' hi_rest
      rw [hred]
      refine ⟨?_, ?_, ?_, ?_⟩
      · rcases hmem with hm | hm
        · exact Or.inr (by rw [hm]; exact List.mem_cons_self i rest)
        · exact Or.inr (List.mem_cons_of_mem i hm)
      · exact le_trans hle (le_of_lt hkey)
      · intro x hx
        rcases List.mem_cons.mp hx with rfl | hx
        · exact hle
        · exact hall x hx
      · intro x hx hkx
        rcases hx with rfl | hx
        · exfalso
          have : key (minBy key rest i) < key x := lt_of_le_of_lt hle hkey
          rw [hkx] at this
          exact lt_irrefl _ this
        · exact hfirst x (List.mem_cons.mp hx) hkx
    · have hred : minBy key (i :: rest) best = minBy key rest best := by
        simp only [minBy, if_neg hkey]
      have hlt' : ∀ x ∈ rest, best < x := fun x hx =>
        hlt x (List.mem_cons_of_mem i hx)
      obtain ⟨hmem, hle, hall, hfirst⟩ := ih best hpw' hlt'
      rw [hred]
      refine ⟨?_, ?_, ?_, ?_⟩
      · rcases hmem with hm | hm
        · exact Or.inl hm
        · exact Or.inr (List.mem_cons_of_mem i hm)
      · exact hle
      · intro x hx
        rcases List.mem_cons.mp hx with rfl | hx
        · exact le_trans hle (not_lt.mp hkey)
        · exact hall x hx
      · intro x hx hkx
        rcases hx with rfl | hx
        · exact hfirst x (Or.inl rfl) hkx
        · rcases List.mem_cons.mp hx with rfl | hx
          · have h1 : key (minBy key rest best) ≤ key best := hle
            have h2 : key best ≤ key x := not_lt.mp hkey
            have h3 : key best = key (minBy key rest best) :=
              le_antisymm (hkx ▸ h2) h1
            have h4 : minBy key rest best ≤ best :=
              hfirst best (Or.inl rfl) h3
            exact le_trans h4 (le_of_lt (hlt x (List.mem_cons_self x rest)))
          · exact hfirst x (Or.inr hx) hkx

/-- C2: for a non-empty polyline, `nearest_idx` returns a valid index
minimizing the haversine distance to the waypoint, and among indices
attaining the minimum it returns the smallest. -/
theorem nearest_idx_is_first_min (rp : List (ℝ × ℝ)) (lat lon : ℝ)
    (h : 0 < rp.length) :
    nearest_idx rp lat lon < rp.length ∧
    (∀ j, j < rp.length →
      haversine lat lon (rp.getD (nearest_idx rp lat lon) (0, 0)).1
          (rp.getD (nearest_idx rp lat lon) (0, 0)).2 ≤
        haversine lat lon (rp.getD j (0, 0)).1 (rp.getD j (0, 0)).2) ∧
    (∀ j, j < rp.length →
      haversine lat lon (rp.getD j (0, 0)).1 (rp.getD j (0, 0)).2 =
        haversine lat lon (rp.getD (nearest_idx rp lat lon) (0, 0)).1
          (rp.getD (nearest_idx rp lat lon) (0, 0)).2 →
      nearest_idx rp lat lon ≤ j) := by
  obtain ⟨m, hm⟩ : ∃ m, rp.length = m + 1 := ⟨rp.length - 1, by omega⟩
  have hr : List.range rp.length = 0 :: (List.range m).map (· + 1) := by
    rw [hm, List.range_succ_eq_map]
  have hred : nearest_idx rp lat lon =
      minBy (fun j => haversine lat lon (rp.getD j (0, 0)).1
        (rp.getD j (0, 0)).2) ((List.range m).map (· + 1)) 0 := by
    unfold nearest_idx
    rw [hr]
  have hpw : ((List.range m).map (· + 1)).Pairwise (· < ·) := by
    rw [List.pairwise_map]
    exact (List.sorted_lt_range m).imp (fun hab => by omega)
  have hpos : ∀ x ∈ (List.range m).map (· + 1), 0 < x := by
    intro x hx
    obtain ⟨y, _, rfl⟩ := List.mem_map.mp hx
    omega
  obtain ⟨hmem, hle, hall, hfirst⟩ :=
    minBy_spec (fun j => haversine lat lon (rp.getD j (0, 0)).1
      (rp.getD j (0, 0)).2) ((List.range m).map (· + 1)) 0 hpw hpos
  rw [hred]
  refine ⟨?_, ?_, ?_⟩
  · rcases hmem with hm0 | hm0
    · omega
    · obtain ⟨y, hy, hyx⟩ := List.mem_map.mp hm0
      have := List.mem_range.mp hy
      omega
  · intro j hj
    rcases Nat.eq_zero_or_pos j with rfl | hjpos
    · exact hle
    · refine hall j (List.mem_map.mpr ⟨j - 1, List.mem_range.mpr (by omega), by omega⟩)
  · intro j hj hkj
    rcases Nat.eq_zero_or_pos j with rfl | hjpos
    · exact hfirst 0 (Or.inl rfl) hkj
    · refine hfirst j
        (Or.inr (List.mem_map.mpr ⟨j - 1, List.mem_range.mpr (by omega), by omega⟩)) hkj

/-- Witness for C2 at a concrete input: a two-point polyline. -/
theorem nearest_idx_is_first_min_witness :
    nearest_idx [((0 : ℝ), (0 : ℝ)), (1, 1)] 0 0 < ([((0 : ℝ), (0 : ℝ)), (1, 1)]).length ∧
    (∀ j, j < ([((0 : ℝ), (0 : ℝ)), (1, 1)]).length →
      haversine 0 0 (([((0 : ℝ), (0 : ℝ)), (1, 1)]).getD
          (nearest_idx [((0 : ℝ), (0 : ℝ)), (1, 1)] 0 0) (0, 0)).1
          (([((0 : ℝ), (0 : ℝ)), (1, 1)]).getD
          (nearest_idx [((0 : ℝ), (0 : ℝ)), (1, 1)] 0 0) (0, 0)).2 ≤
        haversine 0 0 (([((0 : ℝ), (0 : ℝ)), (1, 1)]).getD j (0, 0)).1
          (([((0 : ℝ), (0 : ℝ)), (1, 1)]).getD j (0, 0)).2) ∧
    (∀ j, j < ([((0 : ℝ), (0 : ℝ)), (1, 1)]).length →
      haversine 0 0 (([((0 : ℝ), (0 : ℝ)), (1, 1)]).getD j (0, 0)).1
          (([((0 : ℝ), (0 : ℝ)), (1, 1)]).getD j (0, 0)).2 =
        haversine 0 0 (([((0 : ℝ), (0 : ℝ)), (1, 1)]).getD
          (nearest_idx [((0 : ℝ), (0 : ℝ)), (1, 1)] 0 0) (0, 0)).1
          (([((0 : ℝ), (0 : ℝ)), (1, 1)]).getD
          (nearest_idx [((0 : ℝ), (0 : ℝ)), (1, 1)] 0 0) (0, 0)).2 →
      nearest_idx [((0 : ℝ), (0 : ℝ)), (1, 1)] 0 0 ≤ j) :=
  nearest_idx_is_first_min [((0 : ℝ), (0 : ℝ)), (1, 1)] 0 0 (by simp)

/-! ## Theorems for claim C3 -/

/-- Python float `%`: nonnegative result for a positive modulus. -/
theorem pymod_nonneg (x m : ℝ) (hm : 0 < m) : 0 ≤ pymod x m := by
  unfold pymod
  rw [sub_nonneg]
  calc m * ((Int.floor (x / m) : ℤ) : ℝ) ≤ m * (x / m) :=
        mul_le_mul_of_nonneg_left (Int.floor_le _) (le_of_lt hm)
    _ = x := by field_simp

/-- Python float `%`: result below a positive modulus. -/
theorem pymod_lt (x m : ℝ) (hm : 0 < m) : pymod x m < m := by
  unfold pymod
  rw [sub_lt_iff_lt_add]
  calc x = m * (x / m) := by field_simp
    _ < m * (((Int.floor (x / m) : ℤ) : ℝ) + 1) :=
        (mul_lt_mul_left hm).mpr (Int.lt_floor_add_one (x / m))
    _ = m + m * ((Int.floor (x / m) : ℤ) : ℝ) := by ring

/-- `pymod` is the identity on `[0, m)`. -/
theorem pymod_eq_self (x m : ℝ) (h0 : 0 ≤ x) (hm : 0 < m) (hx : x < m) :
    pymod x m = x := by
  unfold pymod
  have hf : Int.floor (x / m) = 0 := by
    rw [Int.floor_eq_zero_iff]
    exact ⟨div_nonneg h0 hm.le, (div_lt_one hm).mpr hx⟩
  rw [hf]
  simp

/-- The normalise-then-round step of `calculate_bearing` always lands in
`[0, 360]` — including the value `360` itself. -/
theorem round_pymod_bounds (b : ℝ) :
    0 ≤ round (pymod (b + 360) 360) ∧ round (pymod (b + 360) 360) ≤ 360 := by
  have h0 := pymod_nonneg (b + 360) 360 (by norm_num)
  have h1 := pymod_lt (b + 360) 360 (by norm_num)
  constructor
  · rw [round_eq]
    exact Int.floor_nonneg.mpr (by linarith)
  · rw [round_eq]
    have h2 : Int.floor (pymod (b + 360) 360 + 1 / 2) < 361 := by
      rw [Int.floor_lt]
      push_cast
      linarith
    omega

/-- When the normalized bearing lies in `(359.5, 360)` — that is, the raw
bearing is in `(-0.5, 0)` — the rounding step yields exactly `360`. -/
theorem round_pymod_eq_360 (b : ℝ) (h1 : -(1 / 2 : ℝ) < b) (h2 : b < 0) :
    round (pymod (b + 360) 360) = 360 := by
  have h0 : 0 ≤ b + 360 := by linarith
  have h3 : b + 360 < 360 := by linarith
  rw [pymod_eq_self _ _ h0 (by norm_num) h3, round_eq]
  have : Int.floor (b + 360 + 1 / 2) = 360 := by
    rw [Int.floor_eq_iff]
    constructor <;> push_cast <;> linarith
  rw [this]

/-- C3 counterexample: the bearing from `(0, 0)` to `(60, -0.1)` is a
fraction of a degree west of due north, so the normalized bearing lies in
`(359.5, 360)` and Python's final `round` returns `360` — outside the
claimed half-open interval `[0, 360)`. -/
theorem calculate_bearing_eq_360_example :
    calculate_bearing 0 0 60 (-(1 / 10)) = 360 := by
  have hπ := Real.pi_pos
  have hy : Real.sin (radiansOf (-(1 / 10)) - radiansOf 0) * Real.cos (radiansOf 60)
      = -(Real.sin (Real.pi / 1800) * (1 / 2)) := by
    have h1 : radiansOf (-(1 / 10)) - radiansOf 0 = -(Real.pi / 1800) := by
      unfold radiansOf; ring
    have h2 : radiansOf 60 = Real.pi / 3 := by unfold radiansOf; ring
    rw [h1, h2, Real.sin_neg, Real.cos_pi_div_three]
    ring
  have hx : Real.cos (radiansOf 0) * Real.sin (radiansOf 60) -
      Real.sin (radiansOf 0) * Real.cos (radiansOf 60) *
        Real.cos (radiansOf (-(1 / 10)) - radiansOf 0)
      = Real.sqrt 3 / 2 := by
    have h0 : radiansOf 0 = 0 := by unfold radiansOf; ring
    have h2 : radiansOf 60 = Real.pi / 3 := by unfold radiansOf; ring
    rw [h0, h2, Real.cos_zero, Real.sin_zero, Real.sin_pi_div_three]
    ring
  simp only [calculate_bearing]
  rw [hy, hx]
  have hsqrt3_pos : (0 : ℝ) < Real.sqrt 3 := Real.sqrt_pos.mpr (by norm_num)
  have hx3 : (0 : ℝ) < Real.sqrt 3 / 2 := by positivity
  have hat : atan2 (-(Real.sin (Real.pi / 1800) * (1 / 2))) (Real.sqrt 3 / 2)
      = Real.arctan ((-(Real.sin (Real.pi / 1800) * (1 / 2))) / (Real.sqrt 3 / 2)) := by
    unfold atan2
    rw [if_pos hx3]
  have ht : (-(Real.sin (Real.pi / 1800) * (1 / 2))) / (Real.sqrt 3 / 2)
      = -(Real.sin (Real.pi / 1800) / Real.sqrt 3) := by
    field_simp
    ring
  rw [hat, ht]
  have hs_pos : 0 < Real.sin (Real.pi / 1800) :=
    Real.sin_pos_of_pos_of_lt_pi (by positivity) (by linarith)
  have hs_lt : Real.sin (Real.pi / 1800) < Real.pi / 1800 := Real.sin_lt (by positivity)
  have h1 : (1 : ℝ) ≤ Real.sqrt 3 := by
    nlinarith [Real.sq_sqrt (show (0 : ℝ) ≤ 3 by norm_num), Real.sqrt_nonneg 3]
  have htan_bound : Real.sin (Real.pi / 1800) / Real.sqrt 3 < Real.tan (Real.pi / 360) := by
    have h2 : Real.sin (Real.pi / 1800) / Real.sqrt 3 ≤ Real.sin (Real.pi / 1800) :=
      div_le_self hs_pos.le h1
    have h3 : Real.sin (Real.pi / 1800) < Real.sin (Real.pi / 360) :=
      Real.sin_lt_sin_of_lt_of_le_pi_div_two (by linarith) (by linarith) (by linarith)
    have hcos_pos : 0 < Real.cos (Real.pi / 360) :=
      Real.cos_pos_of_mem_Ioo ⟨by linarith, by linarith⟩
    have hcos_le : Real.cos (Real.pi / 360) ≤ 1 := Real.cos_le_one _
    have hsin_pos : 0 < Real.sin (Real.pi / 360) :=
      Real.sin_pos_of_pos_of_lt_pi (by linarith) (by linarith)
    have h4 : Real.sin (Real.pi / 360) ≤ Real.tan (Real.pi / 360) := by
      rw [Real.tan_eq_sin_div_cos, le_div_iff₀ hcos_pos]
      nlinarith
    linarith
  have harctan_lt0 : Real.arctan (-(Real.sin (Real.pi / 1800) / Real.sqrt 3)) < 0 := by
    have hneg : -(Real.sin (Real.pi / 1800) / Real.sqrt 3) < 0 := by
      have := div_pos hs_pos hsqrt3_pos
      linarith
    calc Real.arctan (-(Real.sin (Real.pi / 1800) / Real.sqrt 3))
        < Real.arctan 0 := Real.arctan_strictMono hneg
      _ = 0 := Real.arctan_zero
  have harctan_gt : -(Real.pi / 360) <
      Real.arctan (-(Real.sin (Real.pi / 1800) / Real.sqrt 3)) := by
    have htn : Real.tan (-(Real.pi / 360)) < -(Real.sin (Real.pi / 1800) / Real.sqrt 3) := by
      rw [Real.tan_neg]
      linarith
    calc -(Real.pi / 360)
        = Real.arctan (Real.tan (-(Real.pi / 360))) :=
          (Real.arctan_tan (by linarith) (by linarith)).symm
      _ < Real.arctan (-(Real.sin (Real.pi / 1800) / Real.sqrt 3)) :=
          Real.arctan_strictMono htn
  apply round_pymod_eq_360
  · unfold degreesOf
    have h5 : -(Real.pi / 360) * (180 / Real.pi) <
        Real.arctan (-(Real.sin (Real.pi / 1800) / Real.sqrt 3)) * (180 / Real.pi) :=
      mul_lt_mul_of_pos_right harctan_gt (by positivity)
    have h6 : -(Real.pi / 360) * (180 / Real.pi) = -(1 / 2 : ℝ) := by
      field_simp
      ring
    rw [mul_div_assoc]
    linarith
  · unfold degreesOf
    have h7 : Real.arctan (-(Real.sin (Real.pi / 1800) / Real.sqrt 3)) * 180 < 0 :=
      mul_neg_of_neg_of_pos harctan_lt0 (by norm_num)
    exact div_neg_of_neg_of_pos h7 hπ

/-- C3 amended: `calculate_bearing` always returns an integer in the
closed interval `[0, 360]`; the endpoint `360` is attainable (see the
counterexample), so the claimed half-open `[0, 360)` must be widened. -/
theorem calculate_bearing_mem_Icc (lat1 lon1 lat2 lon2 : ℝ) :
    0 ≤ calculate_bearing lat1 lon1 lat2 lon2 ∧
    calculate_bearing lat1 lon1 lat2 lon2 ≤ 360 := by
  simp only [calculate_bearing]
  exact round_pymod_bounds _

/-! ## Theorems for claim C5 -/

/-- C5 counterexample: the Rest (minutes) formula emitted for the first
data row (spreadsheet row 2) is `=""`, which the formula engine evaluates
to the empty string — not to the number `0` the claim states. -/
theorem restFormula_first_row_not_zero :
    evalConstFormula (restFormula 2) = some (XlValue.str "") ∧
    some (XlValue.str "") ≠ some (XlValue.num 0) := by
  constructor
  · rfl
  · decide

/-- C5 amended: the Rest (minutes) formula evaluates to the empty string
(not 0) for the first data row, and to 10 for every other data row. -/
theorem restFormula_values :
    evalConstFormula (restFormula 2) = some (XlValue.str "") ∧
    (∀ r, 2 < r → evalConstFormula (restFormula r) = some (XlValue.num 10)) := by
  constructor
  · rfl
  · intro r hr
    have hne : restFormula r = "=10" := by
      unfold restFormula
      rw [if_neg (by omega)]
    rw [hne]
    rfl

/-- Witness for the amended C5 at data row 3. -/
theorem restFormula_values_witness :
    evalConstFormula (restFormula 3) = some (XlValue.num 10) :=
  restFormula_values.2 3 (by omega)

/-! ## Theorems for claim C8 -/

/-- C8: with a single argument whose extension does not lower-case to
`.gpx`, `main` reports the extension error and exits 1, whatever the GPX
contents or the elevation service would have returned — conversion is
never attempted and only the `success` outcome writes an output file. -/
theorem mainRun_bad_extension (prog inp : String) (grid : ℝ × ℝ → String)
    (parsed : Option (List (ℝ × ℝ) × List Wpt)) (elevResult : Option (List ℝ))
    (h : toLowerStr (splitext inp).2 ≠ ".gpx") :
    mainRun [prog, inp] grid parsed elevResult = MainResult.extensionError ∧
    exitCode (mainRun [prog, inp] grid parsed elevResult) = 1 := by
  have hm : mainRun [prog, inp] grid parsed elevResult = MainResult.extensionError := by
    simp only [mainRun]
    rw [if_neg (by simp)]
    have h3 : ([prog, inp] : List String).getD 1 "" = inp := rfl
    rw [h3, if_pos h]
  refine ⟨hm, ?_⟩
  rw [hm]
  rfl

/-- Witness for C8: `route.kml` is rejected. -/
theorem mainRun_bad_extension_witness :
    mainRun ["gpx2routecard", "route.kml"] (fun _ => "") none none =
      MainResult.extensionError ∧
    exitCode (mainRun ["gpx2routecard", "route.kml"] (fun _ => "") none none) = 1 :=
  mainRun_bad_extension "gpx2routecard" "route.kml" (fun _ => "") none none
    (by decide)

/-! ## Structural lemmas about the extractor -/

/-- A sample grid-reference oracle for concrete examples. -/
def gridX : ℝ × ℝ → String := fun _ => "X"

theorem buildRows_length (np : List NamedPoint) (ds : List ℝ) (bs : List String)
    (asc : List (Cell ℤ)) : (buildRows np ds bs asc).length = np.length := by
  unfold buildRows
  rw [List.length_map, List.length_range]

theorem buildRows_getD (np : List NamedPoint) (ds : List ℝ) (bs : List String)
    (asc : List (Cell ℤ)) (i : ℕ) (h : i < np.length) :
    (buildRows np ds bs asc).getD i defaultRow =
      { grid_reference := rjust ((np.getD i defaultNamedPoint).gridRef) 8
        name := (np.getD i defaultNamedPoint).name
        distance_from_last_km :=
          if i = 0 then Cell.blank else Cell.val (ds.getD (i - 1) 0)
        bearing := bs.getD i ""
        description := (np.getD i defaultNamedPoint).description
        ascent := asc.getD i Cell.blank } := by
  unfold buildRows
  rw [List.getD_eq_getElem?_getD, List.getElem?_map, List.getElem?_range h]
  rfl

theorem renameEnd_length (l : List NamedPoint) : (renameEnd l).length = l.length := by
  unfold renameEnd
  cases hl : l.getLast? with
  | none => rfl
  | some p =>
    have hne : l ≠ [] := by
      intro hnil
      subst hnil
      simp at hl
    have hpos : 0 < l.length := List.length_pos.mpr hne
    rw [List.length_append, List.length_dropLast]
    simp only [List.length_cons, List.length_nil]
    omega

theorem renameEnd_cons_eq (p : NamedPoint) (l : List NamedPoint) :
    renameEnd (p :: l) =
      (p :: l).dropLast ++
        [⟨"END", ((p :: l).getLast (List.cons_ne_nil p l)).description,
          ((p :: l).getLast (List.cons_ne_nil p l)).lat,
          ((p :: l).getLast (List.cons_ne_nil p l)).lon,
          ((p :: l).getLast (List.cons_ne_nil p l)).gridRef⟩] := by
  unfold renameEnd
  rw [List.getLast?_eq_getLast (p :: l) (List.cons_ne_nil p l)]

theorem renameEnd_cons_getD_zero (p : NamedPoint) (l : List NamedPoint) :
    ((renameEnd (p :: l)).getD 0 defaultNamedPoint).gridRef = p.gridRef ∧
    ((renameEnd (p :: l)).getD 0 defaultNamedPoint).description = p.description := by
  cases l with
  | nil => exact ⟨rfl, rfl⟩
  | cons q l' =>
    rw [renameEnd_cons_eq]
    exact ⟨rfl, rfl⟩

theorem getD_append_singleton (xs : List NamedPoint) (e : NamedPoint) :
    (xs ++ [e]).getD xs.length defaultNamedPoint = e := by
  rw [List.getD_eq_getElem?_getD, List.getElem?_append, if_neg (by omega)]
  simp

theorem renameEnd_cons_last (p : NamedPoint) (l : List NamedPoint) :
    ((renameEnd (p :: l)).getD ((p :: l).length - 1) defaultNamedPoint).name = "END" ∧
    ((renameEnd (p :: l)).getD ((p :: l).length - 1) defaultNamedPoint).description =
      ((p :: l).getLast (List.cons_ne_nil p l)).description := by
  rw [renameEnd_cons_eq]
  have hlen : (p :: l).dropLast.length = (p :: l).length - 1 :=
    List.length_dropLast _
  rw [show (p :: l).length - 1 = (p :: l).dropLast.length from hlen.symm,
    getD_append_singleton]
  exact ⟨rfl, rfl⟩

theorem collectAscents_eq_map (es : List ℝ) :
    ∀ (l : List ℕ) (mids : List (Cell ℤ)), collectAscents es l = some mids →
      mids = l.map (fun i => Cell.val (round (es.getD (i + 1) 0 - es.getD i 0))) := by
  intro l
  induction l with
  | nil =>
    intro mids h
    simp only [collectAscents] at h
    simp only [List.map_nil]
    exact (Option.some.inj h).symm
  | cons i rest ih =>
    intro mids h
    unfold collectAscents at h
    cases hb : es[i + 1]? with
    | none => rw [hb] at h; simp at h
    | some b =>
      cases ha : es[i]? with
      | none => rw [hb, ha] at h; simp at h
      | some a =>
        rw [hb, ha] at h
        simp only at h
        cases hc : collectAscents es rest with
        | none => rw [hc] at h; simp at h
        | some t =>
          rw [hc] at h
          simp only [Option.map_some'] at h
          have ht : mids = Cell.val (round (b - a)) :: t := (Option.some.inj h).symm
          have hb' : es.getD (i + 1) 0 = b := by
            rw [List.getD_eq_getElem?_getD, hb]
            rfl
          have ha' : es.getD i 0 = a := by
            rw [List.getD_eq_getElem?_getD, ha]
            rfl
          rw [ht, List.map_cons, hb', ha']
          congr 1
          exact ih t hc

theorem collectAscents_none_of_getElem_none (es : List ℝ) :
    ∀ (l : List ℕ) (i : ℕ), i ∈ l → es[i + 1]? = none → collectAscents es l = none := by
  intro l
  induction l with
  | nil => intro i hi _; simp at hi
  | cons j rest ih =>
    intro i hi hnone
    unfold collectAscents
    cases hb : es[j + 1]? with
    | none => rfl
    | some b =>
      cases ha : es[j]? with
      | none => rfl
      | some a =>
        simp only []
        rcases List.mem_cons.mp hi with rfl | hi'
        · rw [hb] at hnone
          simp at hnone
        · rw [ih i hi' hnone]
          rfl

/-- Inversion of a successful run of `extract_named_waypoints`. -/
theorem extract_some_elim (grid : ℝ × ℝ → String) (rp : List (ℝ × ℝ))
    (wpts : List Wpt) (elevR : Option (List ℝ)) (rows : List Row)
    (h : extract_named_waypoints grid rp wpts elevR = some rows) :
    ∃ es mids, elevR = some es ∧
      collectAscents es (List.range ((namedPoints grid rp wpts).length - 1)) = some mids ∧
      rows = buildRows (namedPoints grid rp wpts)
        (legDistances rp ((namedPoints grid rp wpts).map
          (fun p => nearest_idx rp p.lat p.lon)))
        (bearingsList (namedPoints grid rp wpts))
        ([Cell.blank] ++ mids ++ [Cell.blank]) := by
  unfold extract_named_waypoints at h
  cases elevR with
  | none => simp at h
  | some es =>
    simp only at h
    by_cases hb : (rp.isEmpty && !(namedPoints grid rp wpts).isEmpty) = true
    · rw [if_pos hb] at h
      simp at h
    · rw [if_neg hb] at h
      unfold ascentsList at h
      cases hc : collectAscents es
          (List.range ((namedPoints grid rp wpts).length - 1)) with
      | none =>
        rw [hc] at h
        simp at h
      | some mids =>
        rw [hc] at h
        simp only [Option.map_some'] at h
        refine ⟨es, mids, rfl, hc, ?_⟩
        exact (Option.some.inj h).symm

/-! ## Theorems for claim C9 -/

/-- C9 counterexample: a GPX file with a non-empty polyline and no named
waypoints yields exactly one named point, and an elevation response with
zero entries (a count mismatch) still converts successfully — one row is
emitted, so a too-long or (here) too-short-but-unindexed elevation list
does not fail the operation. -/
theorem extract_count_mismatch_succeeds :
    extract_named_waypoints gridX [((0 : ℝ), (0 : ℝ))] [] (some []) =
      some [{ grid_reference := rjust "X" 8, name := "END",
              distance_from_last_km := Cell.blank, bearing := "",
              description := "", ascent := Cell.blank }] ∧
    ([] : List ℝ).length ≠ (namedPoints gridX [((0 : ℝ), (0 : ℝ))] []).length := by
  constructor
  · rfl
  · have h1 : (namedPoints gridX [((0 : ℝ), (0 : ℝ))] []).length = 1 := rfl
    have h0 : ([] : List ℝ).length = 0 := rfl
    omega

/-- C9 amended: the conversion fails (no rows are emitted) when the
remote elevation call errors, and when the lookup returns fewer
elevations than there are named points while at least two named points
exist (so that the elevation loop actually indexes past the end); a
surplus of elevations, or a shortfall with a single named point, goes
undetected. -/
theorem extract_elevation_failure (grid : ℝ × ℝ → String) (rp : List (ℝ × ℝ))
    (wpts : List Wpt) :
    extract_named_waypoints grid rp wpts none = none ∧
    (∀ es : List ℝ, es.length < (namedPoints grid rp wpts).length →
      2 ≤ (namedPoints grid rp wpts).length →
      extract_named_waypoints grid rp wpts (some es) = none) := by
  constructor
  · rfl
  · intro es hlen h2
    unfold extract_named_waypoints
    simp only
    by_cases hb : (rp.isEmpty && !(namedPoints grid rp wpts).isEmpty) = true
    · rw [if_pos hb]
    · rw [if_neg hb]
      have hn : collectAscents es
          (List.range ((namedPoints grid rp wpts).length - 1)) = none := by
        apply collectAscents_none_of_getElem_none es _
          ((namedPoints grid rp wpts).length - 2)
        · exact List.mem_range.mpr (by omega)
        · apply List.getElem?_eq_none
          omega
      unfold ascentsList
      rw [hn]
      rfl

/-- Witness for the amended C9: two named points (START plus one GPX
waypoint), an empty elevation list — the conversion fails. -/
theorem extract_elevation_failure_witness :
    extract_named_waypoints gridX [((0 : ℝ), (0 : ℝ))]
      [⟨"A", "", 0, 0⟩] (some []) = none :=
  (extract_elevation_failure gridX [((0 : ℝ), (0 : ℝ))] [⟨"A", "", 0, 0⟩]).2 []
    (by
      have h1 : (namedPoints gridX [((0 : ℝ), (0 : ℝ))] [⟨"A", "", 0, 0⟩]).length = 2 := rfl
      have h0 : ([] : List ℝ).length = 0 := rfl
      omega)
    (by
      have h1 : (namedPoints gridX [((0 : ℝ), (0 : ℝ))] [⟨"A", "", 0, 0⟩]).length = 2 := rfl
      omega)

/-! ## Theorems for claim C10 -/

/-- C10: a non-empty polyline with zero named GPX waypoints produces
exactly one row; the synthetic START entry itself is renamed, so that
single row is named "END" and the name "START" appears nowhere. -/
theorem extract_only_start_renamed_end (grid : ℝ × ℝ → String)
    (rp : List (ℝ × ℝ)) (wpts : List Wpt) (es : List ℝ) (hrp : rp ≠ [])
    (hw : ∀ w ∈ wpts, w.name = "") :
    extract_named_waypoints grid rp wpts (some es) =
      some [{ grid_reference := rjust (grid (rp.getD 0 (0, 0))) 8,
              name := "END", distance_from_last_km := Cell.blank,
              bearing := "", description := "", ascent := Cell.blank }] := by
  obtain ⟨hd, tl, rfl⟩ := List.exists_cons_of_ne_nil hrp
  obtain ⟨la, lo⟩ := hd
  have hfilter : wpts.filter (fun w => w.name != "") = [] := by
    rw [List.filter_eq_nil_iff]
    intro w hwmem
    simp [hw w hwmem]
  have hnp : namedPoints grid ((la, lo) :: tl) wpts =
      [⟨"END", "", la, lo, grid (la, lo)⟩] := by
    unfold namedPoints namedPoints0
    rw [hfilter]
    rfl
  unfold extract_named_waypoints
  rw [hnp]
  rfl

/-- Witness for C10: one polyline point, one nameless GPX waypoint. -/
theorem extract_only_start_renamed_end_witness :
    extract_named_waypoints gridX [((0 : ℝ), (0 : ℝ))] [⟨"", "d", 5, 5⟩] (some [7]) =
      some [{ grid_reference := rjust (gridX (([((0 : ℝ), (0 : ℝ))]).getD 0 (0, 0))) 8,
              name := "END", distance_from_last_km := Cell.blank,
              bearing := "", description := "", ascent := Cell.blank }] :=
  extract_only_start_renamed_end gridX [((0 : ℝ), (0 : ℝ))] [⟨"", "d", 5, 5⟩] [7]
    (List.cons_ne_nil _ _)
    (by
      intro w hw
      rcases List.mem_singleton.mp hw with rfl
      rfl)

/-! ## Theorems for claim C4 -/

/-- Facts about the named-point list built from a non-empty polyline:
its length matches the pre-rename list, its head keeps the START entry's
grid reference and (empty) description, and its last entry is named
"END" with the pre-rename last description. -/
theorem namedPoints_cons_facts (grid : ℝ × ℝ → String) (la lo : ℝ)
    (tl : List (ℝ × ℝ)) (wpts : List Wpt) :
    (namedPoints grid ((la, lo) :: tl) wpts).length =
      (namedPoints0 grid ((la, lo) :: tl) wpts).length ∧
    ((namedPoints grid ((la, lo) :: tl) wpts).getD 0 defaultNamedPoint).gridRef =
      grid (la, lo) ∧
    ((namedPoints grid ((la, lo) :: tl) wpts).getD 0 defaultNamedPoint).description
      = "" ∧
    ((namedPoints grid ((la, lo) :: tl) wpts).getD
        ((namedPoints grid ((la, lo) :: tl) wpts).length - 1)
        defaultNamedPoint).name = "END" ∧
    ((namedPoints grid ((la, lo) :: tl) wpts).getD
        ((namedPoints grid ((la, lo) :: tl) wpts).length - 1)
        defaultNamedPoint).description =
      ((namedPoints0 grid ((la, lo) :: tl) wpts).getLastD
        defaultNamedPoint).description := by
  have hL : (namedPoints grid ((la, lo) :: tl) wpts).length =
      (namedPoints0 grid ((la, lo) :: tl) wpts).length :=
    renameEnd_length _
  have hz := renameEnd_cons_getD_zero
    (⟨"START", "", la, lo, grid (la, lo)⟩ : NamedPoint)
    ((wpts.filter (fun w => w.name != "")).map
      (fun w => ⟨w.name, w.description, w.lat, w.lon, grid (w.lat, w.lon)⟩))
  have hl := renameEnd_cons_last
    (⟨"START", "", la, lo, grid (la, lo)⟩ : NamedPoint)
    ((wpts.filter (fun w => w.name != "")).map
      (fun w => ⟨w.name, w.description, w.lat, w.lon, grid (w.lat, w.lon)⟩))
  have hbridge : (((⟨"START", "", la, lo, grid (la, lo)⟩ : NamedPoint) ::
      (wpts.filter (fun w => w.name != "")).map
        (fun w => ⟨w.name, w.description, w.lat, w.lon, grid (w.lat, w.lon)⟩)).getLast
          (List.cons_ne_nil _ _)) =
      ((namedPoints0 grid ((la, lo) :: tl) wpts).getLastD defaultNamedPoint) := by
    have hn0 : namedPoints0 grid ((la, lo) :: tl) wpts =
        (⟨"START", "", la, lo, grid (la, lo)⟩ : NamedPoint) ::
          (wpts.filter (fun w => w.name != "")).map
            (fun w => ⟨w.name, w.description, w.lat, w.lon, grid (w.lat, w.lon)⟩) := rfl
    rw [hn0, List.getLastD_eq_getLast?, List.getLast?_eq_getLast _ (List.cons_ne_nil _ _)]
    rfl
  refine ⟨hL, hz.1, hz.2, ?_, ?_⟩
  · rw [hL]
    exact hl.1
  · rw [hL]
    rw [← hbridge]
    exact hl.2

/-- C4: for every GPX input with a non-empty polyline (and a successful
conversion), the first emitted row is the synthetic START waypoint — its
grid reference comes from the first polyline point, its description is
empty, and its distance, bearing and ascent cells are all empty — and the
last emitted row has name "END" regardless of the original GPX name,
with the original description preserved. -/
theorem extract_first_last_row (grid : ℝ × ℝ → String) (rp : List (ℝ × ℝ))
    (wpts : List Wpt) (elevR : Option (List ℝ)) (rows : List Row)
    (hrp : rp ≠ []) (h : extract_named_waypoints grid rp wpts elevR = some rows) :
    rows ≠ [] ∧
    (rows.getD 0 defaultRow).grid_reference = rjust (grid (rp.getD 0 (0, 0))) 8 ∧
    (rows.getD 0 defaultRow).description = "" ∧
    (rows.getD 0 defaultRow).distance_from_last_km = Cell.blank ∧
    (rows.getD 0 defaultRow).bearing = "" ∧
    (rows.getD 0 defaultRow).ascent = Cell.blank ∧
    (rows.getD (rows.length - 1) defaultRow).name = "END" ∧
    (rows.getD (rows.length - 1) defaultRow).description =
      ((namedPoints0 grid rp wpts).getLastD defaultNamedPoint).description := by
  obtain ⟨es, mids, hE, hC, hR⟩ := extract_some_elim grid rp wpts elevR rows h
  obtain ⟨hd, tl, rfl⟩ := List.exists_cons_of_ne_nil hrp
  obtain ⟨la, lo⟩ := hd
  obtain ⟨hL, hz1, hz2, hl1, hl2⟩ := namedPoints_cons_facts grid la lo tl wpts
  have hn0len : 0 < (namedPoints0 grid ((la, lo) :: tl) wpts).length := by
    have : namedPoints0 grid ((la, lo) :: tl) wpts =
        (⟨"START", "", la, lo, grid (la, lo)⟩ : NamedPoint) ::
          (wpts.filter (fun w => w.name != "")).map
            (fun w => ⟨w.name, w.description, w.lat, w.lon, grid (w.lat, w.lon)⟩) := rfl
    rw [this]
    simp
  have hnplen : 0 < (namedPoints grid ((la, lo) :: tl) wpts).length := by omega
  have hrowlen : rows.length = (namedPoints grid ((la, lo) :: tl) wpts).length := by
    rw [hR, buildRows_length]
  refine ⟨?_, ?_, ?_, ?_, ?_, ?_, ?_, ?_⟩
  · have : 0 < rows.length := by omega
    exact List.ne_nil_of_length_pos this
  · rw [hR, buildRows_getD _ _ _ _ 0 hnplen]
    exact congrArg (fun s => rjust s 8) hz1
  · rw [hR, buildRows_getD _ _ _ _ 0 hnplen]
    exact hz2
  · rw [hR, buildRows_getD _ _ _ _ 0 hnplen]
    rfl
  · rw [hR, buildRows_getD _ _ _ _ 0 hnplen]
    rfl
  · rw [hR, buildRows_getD _ _ _ _ 0 hnplen]
    rfl
  · rw [hrowlen, hR, buildRows_getD _ _ _ _ _ (by omega)]
    exact hl1
  · rw [hrowlen, hR, buildRows_getD _ _ _ _ _ (by omega)]
    exact hl2

/-- Witness for C4: single polyline point, no GPX waypoints. -/
theorem extract_first_last_row_witness :
    ([(⟨rjust "X" 8, "END", Cell.blank, "", "", Cell.blank⟩ : Row)] : List Row) ≠ [] ∧
    (([(⟨rjust "X" 8, "END", Cell.blank, "", "", Cell.blank⟩ : Row)] : List Row).getD 0
        defaultRow).grid_reference =
      rjust (gridX (([((0 : ℝ), (0 : ℝ))]).getD 0 (0, 0))) 8 ∧
    (([(⟨rjust "X" 8, "END", Cell.blank, "", "", Cell.blank⟩ : Row)] : List Row).getD 0
        defaultRow).description = "" ∧
    (([(⟨rjust "X" 8, "END", Cell.blank, "", "", Cell.blank⟩ : Row)] : List Row).getD 0
        defaultRow).distance_from_last_km = Cell.blank ∧
    (([(⟨rjust "X" 8, "END", Cell.blank, "", "", Cell.blank⟩ : Row)] : List Row).getD 0
        defaultRow).bearing = "" ∧
    (([(⟨rjust "X" 8, "END", Cell.blank, "", "", Cell.blank⟩ : Row)] : List Row).getD 0
        defaultRow).ascent = Cell.blank ∧
    (([(⟨rjust "X" 8, "END", Cell.blank, "", "", Cell.blank⟩ : Row)] : List Row).getD
        (([(⟨rjust "X" 8, "END", Cell.blank, "", "", Cell.blank⟩ : Row)] : List Row).length - 1)
        defaultRow).name = "END" ∧
    (([(⟨rjust "X" 8, "END", Cell.blank, "", "", Cell.blank⟩ : Row)] : List Row).getD
        (([(⟨rjust "X" 8, "END", Cell.blank, "", "", Cell.blank⟩ : Row)] : List Row).length - 1)
        defaultRow).description =
      ((namedPoints0 gridX [((0 : ℝ), (0 : ℝ))] []).getLastD
        defaultNamedPoint).description :=
  extract_first_last_row gridX [((0 : ℝ), (0 : ℝ))] [] (some [])
    [(⟨rjust "X" 8, "END", Cell.blank, "", "", Cell.blank⟩ : Row)]
    (List.cons_ne_nil _ _) rfl

/-! ## Theorems for claim C6 -/

theorem buildRows_map_ascent (np : List NamedPoint) (ds : List ℝ)
    (bs : List String) (mids : List (Cell ℤ))
    (hlen : np.length = mids.length + 1) :
    (buildRows np ds bs ([Cell.blank] ++ mids ++ [Cell.blank])).map
      (fun r => r.ascent) = Cell.blank :: mids := by
  apply List.ext_getElem?
  intro i
  by_cases hi : i < np.length
  · have hb : (buildRows np ds bs ([Cell.blank] ++ mids ++ [Cell.blank]))[i]? =
        some ({ grid_reference := rjust ((np.getD i defaultNamedPoint).gridRef) 8
                name := (np.getD i defaultNamedPoint).name
                distance_from_last_km :=
                  if i = 0 then Cell.blank else Cell.val (ds.getD (i - 1) 0)
                bearing := bs.getD i ""
                description := (np.getD i defaultNamedPoint).description
                ascent := ([Cell.blank] ++ mids ++ [Cell.blank]).getD i Cell.blank } : Row) := by
      unfold buildRows
      rw [List.getElem?_map, List.getElem?_range hi]
      rfl
    rw [List.getElem?_map, hb]
    simp only [Option.map_some']
    cases i with
    | zero =>
      rw [List.getElem?_cons_zero]
      rfl
    | succ k =>
      have hk : k < mids.length := by omega
      have hmid : ([Cell.blank] ++ mids ++ [Cell.blank]).getD (k + 1) Cell.blank =
          mids.getD k Cell.blank := by
        have e1 : ([Cell.blank] ++ mids ++ [Cell.blank]) =
            Cell.blank :: (mids ++ [Cell.blank]) := rfl
        rw [e1]
        have e2 : (Cell.blank :: (mids ++ [Cell.blank])).getD (k + 1) Cell.blank =
            (mids ++ [Cell.blank]).getD k Cell.blank := rfl
        rw [e2, List.getD_eq_getElem?_getD, List.getD_eq_getElem?_getD,
          List.getElem?_append, if_pos hk]
      rw [hmid]
      rw [List.getElem?_cons_succ, List.getD_eq_getElem?_getD]
      cases hmk : mids[k]? with
      | none =>
        exfalso
        have := List.getElem?_eq_none_iff.mp hmk
        omega
      | some c => rfl
  · have hlhs : ((buildRows np ds bs ([Cell.blank] ++ mids ++ [Cell.blank])).map
        (fun r => r.ascent))[i]? = none := by
      apply List.getElem?_eq_none
      rw [List.length_map, buildRows_length]
      omega
    have hrhs : (Cell.blank :: mids)[i]? = none := by
      apply List.getElem?_eq_none
      simp only [List.length_cons]
      omega
    rw [hlhs, hrhs]

theorem cellSumZ_map_val (f : ℕ → ℤ) (l : List ℕ) :
    cellSumZ (l.map (fun i => Cell.val (f i))) = (l.map f).sum := by
  induction l with
  | nil => rfl
  | cons a t ih =>
    simp only [List.map_cons, List.sum_cons, cellSumZ]
    rw [ih]

theorem sum_map_range_eq (f : ℕ → ℤ) (n : ℕ) :
    ((List.range n).map f).sum = ∑ i ∈ Finset.range n, f i := by
  induction n with
  | zero => rfl
  | succ n ih =>
    rw [List.range_succ, List.map_append, List.sum_append,
      Finset.sum_range_succ, ih]
    simp

/-- C6 amended: for every successful conversion, the emitted row count
(one ascent cell per row) equals the named-waypoint count and the first
row's ascent cell is blank; the sum of the emitted per-leg rounded deltas
equals `elevation[last] - elevation[0]` provided every consecutive
elevation difference is an integer (rounding is the identity there) —
with fractional elevations the rounded per-leg sum can differ from the
endpoint difference (see the counterexample). -/
theorem extract_ascent_column (grid : ℝ × ℝ → String) (rp : List (ℝ × ℝ))
    (wpts : List Wpt) (es : List ℝ) (rows : List Row)
    (h : extract_named_waypoints grid rp wpts (some es) = some rows) :
    rows.length = (namedPoints grid rp wpts).length ∧
    (rows ≠ [] → (rows.getD 0 defaultRow).ascent = Cell.blank) ∧
    ((∀ i, i + 1 < (namedPoints grid rp wpts).length →
        ∃ z : ℤ, es.getD (i + 1) 0 - es.getD i 0 = (z : ℝ)) →
      ((cellSumZ (rows.map (fun r => r.ascent))) : ℝ) =
        es.getD ((namedPoints grid rp wpts).length - 1) 0 - es.getD 0 0) := by
  obtain ⟨es', mids, hE, hC, hR⟩ := extract_some_elim grid rp wpts (some es) rows h
  have hes : es' = es := by
    injection hE with hE'
    exact hE'.symm
  subst hes
  have hmids := collectAscents_eq_map es' _ mids hC
  have hmidslen : mids.length = (namedPoints grid rp wpts).length - 1 := by
    rw [hmids, List.length_map, List.length_range]
  refine ⟨?_, ?_, ?_⟩
  · rw [hR, buildRows_length]
  · intro hne
    have hpos : 0 < (namedPoints grid rp wpts).length := by
      have h1 : 0 < rows.length := List.length_pos.mpr hne
      rw [hR, buildRows_length] at h1
      exact h1
    rw [hR, buildRows_getD _ _ _ _ 0 hpos]
    rfl
  · intro hint
    rcases Nat.eq_zero_or_pos (namedPoints grid rp wpts).length with hn | hn
    · have hrows : rows = [] := by
        have hlen0 : rows.length = 0 := by rw [hR, buildRows_length, hn]
        exact List.length_eq_zero.mp hlen0
      rw [hrows, hn]
      simp [cellSumZ]
    · obtain ⟨m, hm⟩ : ∃ m, (namedPoints grid rp wpts).length = m + 1 :=
        ⟨(namedPoints grid rp wpts).length - 1, by omega⟩
      have hml : mids.length = m := by omega
      have hmap : rows.map (fun r => r.ascent) = Cell.blank :: mids := by
        rw [hR]
        exact buildRows_map_ascent _ _ _ _ (by omega)
      rw [hmap]
      have hsum : cellSumZ (Cell.blank :: mids) = cellSumZ mids := rfl
      rw [hsum, hmids]
      have hrange : (namedPoints grid rp wpts).length - 1 = m := by omega
      rw [hrange]
      rw [cellSumZ_map_val (fun i => round (es'.getD (i + 1) 0 - es'.getD i 0)) _,
        sum_map_range_eq]
      have hcast : ∀ i ∈ Finset.range m,
          ((round (es'.getD (i + 1) 0 - es'.getD i 0) : ℤ) : ℝ) =
            es'.getD (i + 1) 0 - es'.getD i 0 := by
        intro i hi
        obtain ⟨z, hz⟩ := hint i (by
          have := Finset.mem_range.mp hi
          omega)
        rw [hz, round_intCast]
      rw [Int.cast_sum, Finset.sum_congr rfl hcast,
        Finset.sum_range_sub (fun i => es'.getD i 0)]

/-- C6 counterexample: with fractional elevations `[0, 0.4, 0.8]` both
per-leg deltas round to `0`, so the sum of the emitted deltas is `0`
while `elevation[last] - elevation[0] = 0.8` — the claimed identity fails
on a successfully converted file. -/
theorem extract_rounded_deltas_break_telescoping :
    ((cellSumZ (((extract_named_waypoints gridX [((0 : ℝ), (0 : ℝ))]
        [⟨"A", "", 0, 0⟩, ⟨"B", "", 0, 0⟩]
        (some [0, 2 / 5, 4 / 5])).getD []).map (fun r => r.ascent))) : ℝ) = 0 ∧
    ([0, 2 / 5, 4 / 5] : List ℝ).getD
        ((namedPoints gridX [((0 : ℝ), (0 : ℝ))]
          [⟨"A", "", 0, 0⟩, ⟨"B", "", 0, 0⟩]).length - 1) 0 -
      ([0, 2 / 5, 4 / 5] : List ℝ).getD 0 0 = 4 / 5 ∧
    (0 : ℝ) ≠ 4 / 5 := by
  have hx : (((extract_named_waypoints gridX [((0 : ℝ), (0 : ℝ))]
      [⟨"A", "", 0, 0⟩, ⟨"B", "", 0, 0⟩]
      (some [0, 2 / 5, 4 / 5])).getD []).map (fun r => r.ascent)) =
      [Cell.blank, Cell.val (round ((2 : ℝ) / 5 - 0)),
        Cell.val (round ((4 : ℝ) / 5 - 2 / 5))] := rfl
  have h1 : round ((2 : ℝ) / 5 - 0) = 0 := by
    rw [round_eq, Int.floor_eq_zero_iff, Set.mem_Ico]
    constructor <;> norm_num
  have h2 : round ((4 : ℝ) / 5 - 2 / 5) = 0 := by
    rw [round_eq, Int.floor_eq_zero_iff, Set.mem_Ico]
    constructor <;> norm_num
  refine ⟨?_, ?_, by norm_num⟩
  · rw [hx]
    simp only [cellSumZ, h1, h2]
    norm_num
  · have hlen : (namedPoints gridX [((0 : ℝ), (0 : ℝ))]
        [⟨"A", "", 0, 0⟩, ⟨"B", "", 0, 0⟩]).length = 3 := rfl
    have ha : ([0, 2 / 5, 4 / 5] : List ℝ).getD 2 0 = 4 / 5 := rfl
    have hb : ([0, 2 / 5, 4 / 5] : List ℝ).getD 0 0 = 0 := rfl
    rw [hlen]
    norm_num [ha, hb]

/-- Witness for the amended C6: single-row conversion (START renamed to
END), empty elevation list. -/
theorem extract_ascent_column_witness :
    ([(⟨rjust "X" 8, "END", Cell.blank, "", "", Cell.blank⟩ : Row)] : List Row).length =
      (namedPoints gridX [((0 : ℝ), (0 : ℝ))] []).length ∧
    (([(⟨rjust "X" 8, "END", Cell.blank, "", "", Cell.blank⟩ : Row)] : List Row) ≠ [] →
      (([(⟨rjust "X" 8, "END", Cell.blank, "", "", Cell.blank⟩ : Row)] : List Row).getD 0
        defaultRow).ascent = Cell.blank) ∧
    ((∀ i, i + 1 < (namedPoints gridX [((0 : ℝ), (0 : ℝ))] []).length →
        ∃ z : ℤ, ([] : List ℝ).getD (i + 1) 0 - ([] : List ℝ).getD i 0 = (z : ℝ)) →
      ((cellSumZ (([(⟨rjust "X" 8, "END", Cell.blank, "", "", Cell.blank⟩ : Row)] :
          List Row).map (fun r => r.ascent))) : ℝ) =
        ([] : List ℝ).getD ((namedPoints gridX [((0 : ℝ), (0 : ℝ))] []).length - 1) 0 -
          ([] : List ℝ).getD 0 0) :=
  extract_ascent_column gridX [((0 : ℝ), (0 : ℝ))] [] []
    [(⟨rjust "X" 8, "END", Cell.blank, "", "", Cell.blank⟩ : Row)] rfl

end Gpx2RouteCard
